import Mathlib

/-!
Verification of the x-bot scheduling-and-selection engine.

Shallow embedding of the repository's core modules:
- db.py          : queue store (daily_queue) and history store (post_history)
- excel_manager.py : candidate selection (eligible_pool, pick_daily_set)
- scheduler.py   : per-slot firing pipeline (run_once, _explode_candidates,
                   _is_url_in_cooldown, _pick_candidate, _mark_posted)
- x_client.py    : post_text dry-run / publish behaviour
- utils.py       : is_valid_youtube
- main.py        : the /post-now handler

Timestamps are modelled as Int seconds since the epoch; dates as Int days
(seconds fdiv 86400).  SQLite tables are modelled as Lean lists of rows;
an SQL UPDATE updates every row matching its WHERE clause, and the
UNIQUE(run_date, slot_index) constraint means at most one row matches a
queue key in any state reachable through the embedded operations.
-/

namespace XBot

/-- One row of the daily_queue table (db.py, SCHEMA). -/
structure QueueRow where
  runDate : String
  slotIndex : Nat
  url : String
  plannedAt : Option Int
  status : String
deriving DecidableEq, Repr

/-- One row of the post_history table (db.py, SCHEMA). -/
structure HRec where
  url : String
  postedAt : Int
deriving DecidableEq, Repr

/-- The WHERE run_date=? AND slot_index=? clause used by the queue operations. -/
def qkey (r : QueueRow) (rd : String) (si : Nat) : Bool :=
  r.runDate == rd && r.slotIndex == si

/-- db.py claim_queue_item, first statement: SELECT youtube_url FROM daily_queue
WHERE run_date=? AND slot_index=? AND status=(a pending literal); fetchone. -/
def claim_select (q : List QueueRow) (rd : String) (si : Nat) : Option String :=
  (q.find? (fun r => qkey r rd si && r.status == "pending")).map (fun r => r.url)

/-- db.py claim_queue_item, second statement: UPDATE daily_queue SET
status=(posting) WHERE run_date=? AND slot_index=? (no status condition). -/
def claim_update (q : List QueueRow) (rd : String) (si : Nat) : List QueueRow :=
  q.map (fun r => if qkey r rd si then { r with status := "posting" } else r)

/-- db.py claim_queue_item (lines 79-96): SELECT the pending row; if absent
return None, else run the UPDATE and return the url. -/
def claim_queue_item (q : List QueueRow) (rd : String) (si : Nat) :
    Option String × List QueueRow :=
  match q.find? (fun r => qkey r rd si && r.status == "pending") with
  | none => (none, q)
  | some row => (some row.url, claim_update q rd si)

/-- Two claim_queue_item calls for the same slot whose two inner statements
interleave as SELECT1, SELECT2, UPDATE1, UPDATE2.  This schedule is possible
because claim_queue_item issues its SELECT and its UPDATE as two separate
statements on the connection rather than one conditional UPDATE. -/
def claim_queue_item_race (q : List QueueRow) (rd : String) (si : Nat) :
    Option String × Option String × List QueueRow :=
  let r1 := claim_select q rd si
  let r2 := claim_select q rd si
  let q1 := if r1.isSome then claim_update q rd si else q
  let q2 := if r2.isSome then claim_update q1 rd si else q1
  (r1, r2, q2)

/-- db.py upsert_queue_item (lines 60-68): INSERT a pending row, ON CONFLICT
(run_date, slot_index) DO UPDATE SET youtube_url, planned_at (status not in
the update list). -/
def upsert_queue_item (q : List QueueRow) (rd : String) (si : Nat)
    (url : String) (plannedAt : Option Int) : List QueueRow :=
  if q.any (fun r => qkey r rd si) then
    q.map (fun r => if qkey r rd si then { r with url := url, plannedAt := plannedAt } else r)
  else
    q ++ [⟨rd, si, url, plannedAt, "pending"⟩]

/-- db.py finish_queue_item (lines 98-104): UPDATE daily_queue SET status=?
WHERE run_date=? AND slot_index=?; no status precondition, no error when the
WHERE clause matches zero rows. -/
def finish_queue_item (q : List QueueRow) (rd : String) (si : Nat)
    (status : String) : List QueueRow :=
  q.map (fun r => if qkey r rd si then { r with status := status } else r)

/-- db.py posted_in_last_days (lines 44-57): DISTINCT urls among the given
ones having a history record with posted_at within the last given days. -/
def posted_in_last_days (hist : List HRec) (urls : List String)
    (days : Int) (now : Int) : List String :=
  let urls := urls.filter (fun u => !(u == ""))
  if urls.isEmpty then [] else
  let since := now - days * 86400
  ((hist.filter (fun h => urls.contains h.url && decide (since ≤ h.postedAt))).map
    (fun h => h.url)).eraseDups

/-! ## Catalog rows and candidate selection (utils.py, excel_manager.py) -/

/-- excel_manager.py module constant COOLDOWN_DAYS = 30. -/
def COOLDOWN_DAYS : Int := 30

/-- excel_manager.py module constant RECENT_WINDOW_DAYS = 60. -/
def RECENT_WINDOW_DAYS : Int := 60

/-- Whether the first list is a prefix of the second (character lists). -/
def startsWithChars : List Char → List Char → Bool
  | [], _ => true
  | _ :: _, [] => false
  | p :: ps, c :: cs => p == c && startsWithChars ps cs

/-- Drop leading whitespace (one side of a Python strip). -/
def dropLeadingWS : List Char → List Char
  | [] => []
  | c :: cs => if c.isWhitespace then dropLeadingWS cs else c :: cs

/-- Python str.strip on a character list: drop whitespace on both ends. -/
def trimChars (l : List Char) : List Char :=
  (dropLeadingWS (dropLeadingWS l.reverse).reverse)

/-- Python str.strip as a String function. -/
def pyStrip (s : String) : String := ⟨trimChars s.data⟩

/-- Lower-case every character (the effect of matching case-insensitively). -/
def lowerChars (l : List Char) : List Char := l.map Char.toLower

/-- utils.py is_valid_youtube: the url, stripped, matches the case-insensitive
pattern of an optional http(s) scheme, an optional www dot, then
youtube.com/ or youtu.be/ ; the empty string is not valid. -/
def is_valid_youtube (url : String) : Bool :=
  let s := lowerChars (trimChars url.data)
  if s.isEmpty then false else
  let s := if startsWithChars "https://".data s then s.drop 8
           else if startsWithChars "http://".data s then s.drop 7 else s
  let s := if startsWithChars "www.".data s then s.drop 4 else s
  startsWithChars "youtube.com/".data s || startsWithChars "youtu.be/".data s

/-- One catalog row as normalised by ExcelManager.load: YouTubeURL a stripped
string (empty when missing), ReleaseDate a parsed timestamp or none,
LastPostedAt a UTC timestamp or none, Posted a boolean. -/
structure Track where
  title : String
  url : String
  releaseDate : Option Int
  lastPostedAt : Option Int
  posted : Bool
deriving DecidableEq, Repr

/-- Sort key of eligible_pool: the ReleaseDate value (rows reaching the sort
always have one; pandas would place missing values last). -/
def releaseKey (r : Track) : Int := r.releaseDate.getD 0

/-- ReleaseDateDate in pick_daily_set: the ReleaseDate reduced to a date. -/
def relDay (r : Track) : Int := (r.releaseDate.getD 0).fdiv 86400

/-- The cooldown mask of eligible_pool: LastPostedAt present and at or after
the cutoff now_utc - COOLDOWN_DAYS. -/
def recent_block (cutoff : Int) (r : Track) : Bool :=
  match r.lastPostedAt with
  | some t => decide (cutoff ≤ t)
  | none => false

/-- One insertion step of a stable descending sort on releaseKey, matching
pandas sort_values(by=ReleaseDate, ascending=False, kind=stable). -/
def insertDesc (x : Track) : List Track → List Track
  | [] => [x]
  | y :: ys => if releaseKey y ≤ releaseKey x then x :: y :: ys else y :: insertDesc x ys

/-- Stable descending sort by releaseKey. -/
def sortDesc (l : List Track) : List Track := l.foldr insertDesc []

/-- drop_duplicates(subset=YouTubeURL, keep=first): keep each row whose url
was not seen earlier in the list. -/
def dedupByUrlAux (seen : List String) : List Track → List Track
  | [] => []
  | x :: xs =>
    if seen.contains x.url then dedupByUrlAux seen xs
    else x :: dedupByUrlAux (x.url :: seen) xs

/-- drop_duplicates by url keeping the first occurrence. -/
def dedupByUrl (l : List Track) : List Track := dedupByUrlAux [] l

/-- excel_manager.py ExcelManager.eligible_pool (lines 98-127): cooldown
filter on LastPostedAt, then the validity filters (parseable ReleaseDate,
non-empty url, is_valid_youtube), then stable descending sort by ReleaseDate
and deduplication by url keeping the first row of the sorted order. -/
def eligible_pool (df : List Track) (now_utc : Int) : List Track :=
  let cutoff := now_utc - COOLDOWN_DAYS * 86400
  let pool := df.filter (fun r => !(recent_block cutoff r))
  let pool := pool.filter (fun r => r.releaseDate.isSome && decide (0 < r.url.length))
  let pool := pool.filter (fun r => is_valid_youtube r.url)
  dedupByUrl (sortDesc pool)

/-- The conjunction of the three row-level filters of eligible_pool. -/
def eligible_row (now_utc : Int) (r : Track) : Bool :=
  !(recent_block (now_utc - COOLDOWN_DAYS * 86400) r) &&
    (r.releaseDate.isSome && decide (0 < r.url.length)) && is_valid_youtube r.url

/-- excel_manager.py ExcelManager.pick_daily_set (lines 129-162).  The three
sample(frac=1) shuffles are modelled by the function arguments shR, shB, shE;
theorems assume each returns a permutation of its input. -/
def pick_daily_set (df : List Track) (now_local now_utc : Int)
    (shR shB shE : List Track → List Track) (k : Nat) : List Track :=
  let pool := eligible_pool df now_utc
  if pool.isEmpty then pool else
  let recent_cut := now_local.fdiv 86400 - RECENT_WINDOW_DAYS
  let recent := shR (pool.filter (fun r => decide (recent_cut ≤ relDay r)))
  let backcat := shB (pool.filter (fun r => decide (relDay r < recent_cut)))
  let chosen := (recent ++ backcat).take k
  if chosen.length < k then
    let extra := shE (pool.filter (fun r => !(chosen.any (fun c => c.url == r.url))))
    chosen ++ extra.take (k - chosen.length)
  else chosen

/-! ## The per-slot firing pipeline (scheduler.py, x_client.py) -/

/-- The url / posted / last-posted column names of one platform. -/
structure PlatCols where
  url : String
  posted : String
  last : String
deriving DecidableEq, Repr

/-- scheduler.py BotScheduler.platform_cols. -/
def platform_cols : List (String × PlatCols) :=
  [("YouTube", ⟨"YouTubeURL", "PostedYouTube", "LastPostedYouTubeAt"⟩),
   ("Beatport", ⟨"BeatportURL", "PostedBeatport", "LastPostedBeatportAt"⟩),
   ("AppleMusic", ⟨"AppleMusicURL", "PostedAppleMusic", "LastPostedAppleMusicAt"⟩),
   ("Spotify", ⟨"SpotifyURL", "PostedSpotify", "LastPostedSpotifyAt"⟩)]

/-- One row of the tracks sheet as loaded by _load_tracks_df: cell values of
the per-platform url / last-posted / posted columns are kept as association
lists keyed by column name (a missing cell has no entry). -/
structure SRow where
  title : String
  artist : Option String
  lang : Option String
  releaseDate : Option Int
  urls : List (String × String)
  lasts : List (String × Int)
  postedFlags : List (String × Bool)
deriving DecidableEq, Repr

/-- scheduler.py Candidate dataclass. -/
structure Candidate where
  row_idx : Nat
  platform : String
  url_col : String
  posted_col : String
  last_posted_col : String
  url : String
  title : String
  artist : Option String
  lang : Option String
  release_dt : Option Int
  last_posted_at : Option Int
  is_recent : Bool
deriving DecidableEq, Repr

/-- scheduler.py BotScheduler._is_url_in_cooldown (lines 259-272): blocked
iff some row whose url column for the platform equals the url (stripped) has
a last-posted value at or after now - cooldownDays. -/
def is_url_in_cooldown (df : List SRow) (url : String) (plat : String)
    (now cooldownDays : Int) : Bool :=
  match platform_cols.lookup plat with
  | none => false
  | some cols =>
    let cutoff := now - cooldownDays * 86400
    df.any (fun row =>
      match row.urls.lookup cols.url with
      | some u2 => pyStrip u2 == pyStrip url &&
          (match row.lasts.lookup cols.last with
           | some t => decide (cutoff ≤ t)
           | none => false)
      | none => false)

/-- scheduler.py BotScheduler._explode_candidates (lines 213-257): one
candidate per (row, enabled platform) with a non-empty url cell, dropping
urls in cooldown; is_recent compares the release timestamp against
now - recentDays at datetime (not date) precision.  This version models
timestamps as plain comparable instants; at full datetime fidelity the
release values are tz-naive while now carries tzinfo, so the comparisons
raise - explode_candidates_dt below refines this model with tz-awareness
and is the authority for the classification behaviour. -/
def explode_candidates (plats : List String) (df : List SRow)
    (now recentDays cooldownDays : Int) : List Candidate :=
  let recent_cut := now - recentDays * 86400
  (df.enum.map (fun p =>
    plats.filterMap (fun plat =>
      match platform_cols.lookup plat with
      | none => none
      | some cols =>
        match p.2.urls.lookup cols.url with
        | none => none
        | some u =>
          if pyStrip u == "" then none
          else if is_url_in_cooldown df (pyStrip u) plat now cooldownDays then none
          else some
            { row_idx := p.1, platform := plat, url_col := cols.url,
              posted_col := cols.posted, last_posted_col := cols.last,
              url := pyStrip u, title := pyStrip p.2.title, artist := p.2.artist,
              lang := p.2.lang, release_dt := p.2.releaseDate,
              last_posted_at := p.2.lasts.lookup cols.last,
              is_recent := match p.2.releaseDate with
                           | some t => decide (recent_cut ≤ t)
                           | none => false }))).flatten

/-- A Python datetime value: an instant plus whether it carries tzinfo.
_load_tracks_df parses ReleaseDate and the last-posted columns without
utc=True, so those values are naive; now = datetime.now(self.tz) and every
cutoff derived from it are aware. -/
structure PyDT where
  aware : Bool
  ts : Int
deriving DecidableEq, Repr

/-- The message of the Python TypeError raised when comparing a tz-naive
datetime with a tz-aware one. -/
def tzCompareError : String :=
  "TypeError: cannot compare offset-naive and offset-aware datetimes"

/-- Python datetime comparison a >= b: defined only when both sides agree on
tz-awareness; otherwise it raises TypeError. -/
def pyGE (a b : PyDT) : Except String Bool :=
  if a.aware == b.aware then Except.ok (decide (b.ts ≤ a.ts))
  else Except.error tzCompareError

/-- scheduler.py line 248: is_recent = (rdt_dt is not None and
rdt_dt >= recent_cut); the and short-circuits, so a missing release date is
simply not recent, while a present one performs the datetime comparison. -/
def candidate_is_recent (rdt : Option PyDT) (recent_cut : PyDT) :
    Except String Bool :=
  match rdt with
  | none => Except.ok false
  | some d => pyGE d recent_cut

/-- Elementwise (naive last-posted) >= (cutoff) over a pandas Series: the
comparison of each element can raise, and a raise aborts the whole check. -/
def naiveGEList (cutoff : PyDT) : List Int → Except String (List Bool)
  | [] => Except.ok []
  | t :: rest =>
    match pyGE ⟨false, t⟩ cutoff with
    | Except.error e => Except.error e
    | Except.ok b =>
      match naiveGEList cutoff rest with
      | Except.error e => Except.error e
      | Except.ok bs => Except.ok (b :: bs)

/-- _is_url_in_cooldown at datetime fidelity: rows whose url column matches
are masked; with no non-null last-posted value among them the notna().any()
short-circuit answers false without comparing, otherwise the naive values
are compared against the aware cutoff (which raises). -/
def is_url_in_cooldown_dt (df : List SRow) (url : String) (plat : String)
    (cutoff : PyDT) : Except String Bool :=
  match platform_cols.lookup plat with
  | none => Except.ok false
  | some cols =>
    let lasts := (df.filter (fun row =>
      match row.urls.lookup cols.url with
      | some u2 => pyStrip u2 == pyStrip url
      | none => false)).filterMap (fun row => row.lasts.lookup cols.last)
    if lasts.isEmpty then Except.ok false
    else
      match naiveGEList cutoff lasts with
      | Except.error e => Except.error e
      | Except.ok bs => Except.ok (bs.any id)

/-- One (row, platform) step of _explode_candidates at datetime fidelity:
the candidate is built (computing is_recent, which can raise) and then the
cooldown check runs (which can raise); a raise propagates out of the loop. -/
def explode_one_dt (df : List SRow) (recent_cut cutoff : PyDT)
    (p : Nat × SRow) (plat : String) : Except String (Option Candidate) :=
  match platform_cols.lookup plat with
  | none => Except.ok none
  | some cols =>
    match p.2.urls.lookup cols.url with
    | none => Except.ok none
    | some u =>
      if pyStrip u == "" then Except.ok none
      else
        match candidate_is_recent (p.2.releaseDate.map (fun t => ⟨false, t⟩))
            recent_cut with
        | Except.error e => Except.error e
        | Except.ok isrec =>
          match is_url_in_cooldown_dt df (pyStrip u) plat cutoff with
          | Except.error e => Except.error e
          | Except.ok blocked =>
            if blocked then Except.ok none
            else Except.ok (some
              { row_idx := p.1, platform := plat, url_col := cols.url,
                posted_col := cols.posted, last_posted_col := cols.last,
                url := pyStrip u, title := pyStrip p.2.title,
                artist := p.2.artist, lang := p.2.lang,
                release_dt := p.2.releaseDate,
                last_posted_at := p.2.lasts.lookup cols.last,
                is_recent := isrec })

/-- The inner platform loop of _explode_candidates at datetime fidelity. -/
def explodeRowDT (df : List SRow) (recent_cut cutoff : PyDT) (p : Nat × SRow) :
    List String → Except String (List Candidate)
  | [] => Except.ok []
  | plat :: rest =>
    match explode_one_dt df recent_cut cutoff p plat with
    | Except.error e => Except.error e
    | Except.ok none => explodeRowDT df recent_cut cutoff p rest
    | Except.ok (some c) =>
      match explodeRowDT df recent_cut cutoff p rest with
      | Except.error e => Except.error e
      | Except.ok cs => Except.ok (c :: cs)

/-- The outer row loop of _explode_candidates at datetime fidelity. -/
def explodeRowsDT (df : List SRow) (recent_cut cutoff : PyDT)
    (plats : List String) : List (Nat × SRow) → Except String (List Candidate)
  | [] => Except.ok []
  | p :: rest =>
    match explodeRowDT df recent_cut cutoff p plats with
    | Except.error e => Except.error e
    | Except.ok cs =>
      match explodeRowsDT df recent_cut cutoff plats rest with
      | Except.error e => Except.error e
      | Except.ok csr => Except.ok (cs ++ csr)

/-- _explode_candidates at datetime fidelity: recent_cut and the cooldown
cutoff are derived from the tz-aware now, the sheet values are naive, and a
TypeError raised by any comparison propagates out (run_once catches it at
the firing boundary and the firing dies). -/
def explode_candidates_dt (plats : List String) (df : List SRow)
    (now recentDays cooldownDays : Int) : Except String (List Candidate) :=
  explodeRowsDT df ⟨true, now - recentDays * 86400⟩
    ⟨true, now - cooldownDays * 86400⟩ plats df.enum

/-- The sort key of _pick_candidate: (0 if recent else 1, minus the release
timestamp with 1970 as default, the original row index). -/
def candKey (c : Candidate) : Int × Int × Int :=
  ((if c.is_recent then 0 else 1), -(c.release_dt.getD 0), (c.row_idx : Int))

/-- Lexicographic comparison of candidate sort keys. -/
def candLE (x y : Candidate) : Bool :=
  let a := candKey x
  let b := candKey y
  decide (a.1 < b.1) ||
    (a.1 == b.1 && (decide (a.2.1 < b.2.1) || (a.2.1 == b.2.1 && decide (a.2.2 ≤ b.2.2))))

/-- One insertion step of the stable ascending sort used by _pick_candidate. -/
def insortCand (x : Candidate) : List Candidate → List Candidate
  | [] => [x]
  | y :: ys => if candLE x y then x :: y :: ys else y :: insortCand x ys

/-- scheduler.py BotScheduler._pick_candidate (lines 274-285): stable sort by
candKey, first element; none when the list is empty. -/
def pick_candidate (l : List Candidate) : Option Candidate :=
  (l.foldr insortCand []).head?

/-- Replace the value of a key in an association list (pandas df.loc cell
assignment; the column always exists after _load_tracks_df). -/
def setAssoc {β : Type} (l : List (String × β)) (k : String) (v : β) :
    List (String × β) :=
  if l.any (fun p => p.1 == k) then
    l.map (fun p => if p.1 == k then (p.1, v) else p)
  else l ++ [(k, v)]

/-- scheduler.py BotScheduler._mark_posted (lines 290-292): set the posted
flag and the last-posted timestamp of the candidate row. -/
def mark_posted_row (df : List SRow) (c : Candidate) (when : Int) : List SRow :=
  df.enum.map (fun p =>
    if p.1 == c.row_idx then
      { p.2 with postedFlags := setAssoc p.2.postedFlags c.posted_col true,
                 lasts := setAssoc p.2.lasts c.last_posted_col when }
    else p.2)

/-- Observable external effects of one firing. -/
inductive Effect where
  | publishedReal (text : String) (media : Option (List String))
  | publishAttempted (text : String) (media : Option (List String))
  | excelSaved
deriving DecidableEq, Repr

/-- Whether the publish call completed or raised (requests raise_for_status). -/
inductive PubOutcome where
  | ok
  | raised
deriving DecidableEq, Repr

/-- The durable sqlite state of db.py. -/
structure XDB where
  history : List HRec
  queue : List QueueRow
deriving DecidableEq, Repr

/-- All durable state: the sqlite database and the Excel catalog file
(none models a missing or unreadable file). -/
structure World where
  db : XDB
  excelFile : Option (List SRow)
deriving DecidableEq, Repr

/-- Configuration and external collaborators of one firing: text generation
and thumbnail preparation are external (spec section 6), publishOk is the
outcome the X API would give to a real publish. -/
structure Env where
  plats : List String
  recentDays : Int
  cooldownDays : Int
  dryRun : Bool
  publishOk : Bool
  now : Int
  genText : Candidate → String
  prepareThumb : String → String → Option (List String)

/-- x_client.py XClient.post_text (lines 49-80): with dry-run on it returns a
simulated payload and performs no network call; otherwise it performs the
real request, raising on an error status. -/
def post_text (dryRun publishOk : Bool) (text : String)
    (media : Option (List String)) : PubOutcome × List Effect :=
  if dryRun then (PubOutcome.ok, [])
  else if publishOk then (PubOutcome.ok, [Effect.publishedReal text media])
  else (PubOutcome.raised, [Effect.publishAttempted text media])

/-- scheduler.py BotScheduler.run_once (lines 103-147): load the sheet,
explode and pick a candidate, generate text, publish, and persist the Excel
marks only on a real (non dry-run) successful publish.  Any exception is
caught at the firing boundary.  The function never touches the sqlite state
(run_once performs no queue or history operation).  Text generation is an
external collaborator modelled as the total env.genText (in the source the
call site and build_post disagree on the signature and would raise), and
candidate classification uses the instant-level explode_candidates; at
datetime fidelity explode_candidates_dt raises on any dated row.  Either
raise is caught by the same except clause and ends the firing with strictly
fewer effects and the same untouched sqlite state, so conclusions about the
queue, the history store and dry-run isolation hold a fortiori of the
source. -/
def run_once (env : Env) (w : World) : World × List Effect :=
  match w.excelFile with
  | none => (w, [])
  | some df =>
    if df.isEmpty then (w, []) else
    let cands := explode_candidates env.plats df env.now env.recentDays env.cooldownDays
    if cands.isEmpty then (w, []) else
    match pick_candidate cands with
    | none => (w, [])
    | some cand =>
      let text := env.genText cand
      let media := env.prepareThumb cand.url cand.platform
      match post_text env.dryRun env.publishOk text media with
      | (PubOutcome.raised, effs) => (w, effs)
      | (PubOutcome.ok, effs) =>
        if env.dryRun then (w, effs)
        else
          ({ w with excelFile := some (mark_posted_row df cand env.now) },
           effs ++ [Effect.excelSaved])

/-- finish_queue_item lifted to the whole durable state: it runs a single
UPDATE on daily_queue and touches nothing else. -/
def finish_world (w : World) (rd : String) (si : Nat) (status : String) : World :=
  { w with db := { w.db with queue := finish_queue_item w.db.queue rd si status } }

/-! ## The /post-now handler (main.py, scheduler.py BotScheduler) -/

/-- The methods defined on scheduler.py class BotScheduler. -/
def botScheduler_methods : List String :=
  ["start", "post_job_with_jitter", "run_once", "_load_tracks_df",
   "_save_tracks_df", "_explode_candidates", "_is_url_in_cooldown",
   "_pick_candidate", "_mark_posted"]

/-- Whether the module-level scheduler singleton has been built and started. -/
structure AppState where
  scheduler_started : Bool
deriving DecidableEq, Repr

/-- Outcome of the HTTP handler: the success payload, or a raised Python
AttributeError from looking up a method the class does not define. -/
inductive HandlerResult where
  | ok (status : String) (slot_index : Nat)
  | attributeError (missing : String)
deriving DecidableEq, Repr

/-- main.py post_now (lines 14-25): lazily construct and start the scheduler,
then call its post_one method; attribute lookup on BotScheduler raises
AttributeError when the method is absent, before any success payload. -/
def post_now (st : AppState) (slot_index : Nat) : AppState × HandlerResult :=
  let st1 : AppState := if st.scheduler_started then st else ⟨true⟩
  if botScheduler_methods.contains "post_one" then
    (st1, HandlerResult.ok "triggered" slot_index)
  else (st1, HandlerResult.attributeError "post_one")

/-! ## Concrete states used in evaluations -/

/-- One valid sheet row: a YouTube url, release date at the midnight of day
19940, never posted. -/
def sampleSheetRow : SRow :=
  { title := "T", artist := none, lang := none,
    releaseDate := some (19940 * 86400),
    urls := [("YouTubeURL", "https://youtu.be/x")], lasts := [], postedFlags := [] }

/-- A firing whose real publish fails (the X API answers an error status). -/
def c2_env : Env :=
  { plats := ["YouTube"], recentDays := 60, cooldownDays := 30,
    dryRun := false, publishOk := false, now := 20000 * 86400 + 36000,
    genText := fun _ => "text", prepareThumb := fun _ _ => none }

/-- Durable state holding one claimed (posting) queue row for the firing day. -/
def c2_world : World :=
  { db := { history := [],
            queue := [⟨"2024-01-01", 0, "https://youtu.be/x", none, "posting"⟩] },
    excelFile := some [sampleSheetRow] }

/-- The same firing configuration with dry-run enabled. -/
def c5_env : Env := { c2_env with dryRun := true, publishOk := true }

/-- Durable state holding one pending queue row for the firing day. -/
def c5_world : World :=
  { db := { history := [],
            queue := [⟨"2024-01-01", 0, "https://youtu.be/x", none, "pending"⟩] },
    excelFile := some [sampleSheetRow] }

/-- The catalog row of sampleSheetRow as an ExcelManager Track: release date
exactly on the 60-day recency boundary of local day 20000. -/
def c6_track : Track := ⟨"T", "https://youtu.be/x", some (19940 * 86400), none, false⟩

/-- A sheet row with no parseable release date: the only kind of row whose
candidate construction survives the tz comparison. -/
def c6_undated_row : SRow :=
  { title := "U", artist := none, lang := none, releaseDate := none,
    urls := [("YouTubeURL", "https://youtu.be/u")], lasts := [], postedFlags := [] }

/-- The candidate explode builds from c6_undated_row: no release date, never
recent. -/
def c6_undatedCandidate : Candidate :=
  { row_idx := 0, platform := "YouTube", url_col := "YouTubeURL",
    posted_col := "PostedYouTube", last_posted_col := "LastPostedYouTubeAt",
    url := "https://youtu.be/u", title := "U", artist := none, lang := none,
    release_dt := none, last_posted_at := none, is_recent := false }

/-! ## Theorems -/

/-- C1: claim_queue_item issues its status check and its status update as two
separate statements, so two claims for the same (runDate, slotIndex) whose
SELECTs interleave before either UPDATE both receive the planned URL,
violating the at-most-once property; only when the two claims run
sequentially does the second return absent. -/
theorem c1_two_step_claim_not_atomic :
    (claim_queue_item_race [⟨"2024-01-01", 0, "https://youtu.be/a", none, "pending"⟩]
        "2024-01-01" 0).1 = some "https://youtu.be/a" ∧
    (claim_queue_item_race [⟨"2024-01-01", 0, "https://youtu.be/a", none, "pending"⟩]
        "2024-01-01" 0).2.1 = some "https://youtu.be/a" ∧
    (claim_queue_item
        (claim_queue_item [⟨"2024-01-01", 0, "https://youtu.be/a", none, "pending"⟩]
          "2024-01-01" 0).2
        "2024-01-01" 0).1 = none := by
  decide

/-- Updating the status field does not change the (runDate, slotIndex) key. -/
theorem qkey_set_status (r : QueueRow) (rd : String) (si : Nat) (s : String) :
    qkey { r with status := s } rd si = qkey r rd si := rfl

/-- C7: upsert on an existing (runDate, slotIndex) row overwrites only url and
plannedAt, keeping whatever status the row had; rows with other keys are
untouched; and when no row has the key the upsert appends a fresh row whose
status is the pending literal. -/
theorem c7_upsert_overwrites_url_not_status (q : List QueueRow) (rd : String)
    (si : Nat) (url : String) (pa : Option Int) :
    (∀ r ∈ q, qkey r rd si = false → r ∈ upsert_queue_item q rd si url pa) ∧
    (∀ r ∈ q, qkey r rd si = true →
      { r with url := url, plannedAt := pa } ∈ upsert_queue_item q rd si url pa) ∧
    (∀ r' ∈ upsert_queue_item q rd si url pa, qkey r' rd si = true →
      r'.url = url ∧ r'.plannedAt = pa ∧
        ((∃ r ∈ q, qkey r rd si = true ∧ r'.status = r.status) ∨
         ((∀ r ∈ q, qkey r rd si = false) ∧ r'.status = "pending"))) := by
  by_cases hany : q.any (fun r => qkey r rd si) = true
  · refine ⟨?_, ?_, ?_⟩
    · intro r hr hk
      have : r ∈ q.map (fun r => if qkey r rd si then
          { r with url := url, plannedAt := pa } else r) := by
        have := List.mem_map_of_mem (fun r => if qkey r rd si then
          { r with url := url, plannedAt := pa } else r) hr
        simpa [hk] using this
      simpa [upsert_queue_item, hany] using this
    · intro r hr hk
      have : { r with url := url, plannedAt := pa } ∈ q.map (fun r =>
          if qkey r rd si then { r with url := url, plannedAt := pa } else r) := by
        have := List.mem_map_of_mem (fun r => if qkey r rd si then
          { r with url := url, plannedAt := pa } else r) hr
        simpa [hk] using this
      simpa [upsert_queue_item, hany] using this
    · intro r' hr' hk'
      rw [upsert_queue_item, if_pos hany] at hr'
      rcases List.mem_map.mp hr' with ⟨r, hr, hfr⟩
      by_cases hk : qkey r rd si = true
      · rw [if_pos hk] at hfr
        subst hfr
        exact ⟨rfl, rfl, Or.inl ⟨r, hr, hk, rfl⟩⟩
      · rw [if_neg hk] at hfr
        subst hfr
        exact absurd hk' hk
  · have hall : ∀ r ∈ q, qkey r rd si = false := by
      intro r hr
      by_contra hne
      exact hany (List.any_eq_true.mpr ⟨r, hr, by
        cases h : qkey r rd si
        · exact absurd h hne
        · exact rfl⟩)
    refine ⟨?_, ?_, ?_⟩
    · intro r hr _
      simp [upsert_queue_item, hany, List.mem_append, hr]
    · intro r hr hk
      exact absurd hk (by simp [hall r hr])
    · intro r' hr' hk'
      rw [upsert_queue_item, if_neg hany] at hr'
      rcases List.mem_append.mp hr' with hin | hnew
      · exact absurd hk' (by simp [hall r' hin])
      · have : r' = (⟨rd, si, url, pa, "pending"⟩ : QueueRow) := by
          simpa using hnew
        subst this
        exact ⟨rfl, rfl, Or.inr ⟨hall, rfl⟩⟩

/-- C7 witness: upserting over an existing claimed row keeps status posting,
and upserting into an empty queue creates a pending row. -/
theorem c7_upsert_overwrites_url_not_status_witness :
    (⟨"2024-01-02", 1, "https://youtu.be/new", some 9, "posting"⟩ : QueueRow) ∈
      upsert_queue_item [⟨"2024-01-02", 1, "https://youtu.be/old", some 5, "posting"⟩]
        "2024-01-02" 1 "https://youtu.be/new" (some 9) := by
  have h := (c7_upsert_overwrites_url_not_status
      [⟨"2024-01-02", 1, "https://youtu.be/old", some 5, "posting"⟩]
      "2024-01-02" 1 "https://youtu.be/new" (some 9)).2.1
      ⟨"2024-01-02", 1, "https://youtu.be/old", some 5, "posting"⟩
      (by decide) (by decide)
  simpa using h

/-- C8: finishing the same (runDate, slotIndex) twice with the same status is
the same as finishing it once, and a finish touches neither the history
store nor the catalog file. -/
theorem c8_finish_idempotent (w : World) (rd : String) (si : Nat) (s : String) :
    finish_world (finish_world w rd si s) rd si s = finish_world w rd si s ∧
    (finish_world w rd si s).db.history = w.db.history ∧
    (finish_world w rd si s).excelFile = w.excelFile := by
  refine ⟨?_, rfl, rfl⟩
  have hq : finish_queue_item (finish_queue_item w.db.queue rd si s) rd si s =
      finish_queue_item w.db.queue rd si s := by
    rw [finish_queue_item, finish_queue_item, List.map_map]
    apply List.map_congr_left
    intro r _
    by_cases h : qkey r rd si = true
    · simp only [Function.comp_apply, h, if_pos, qkey_set_status]
    · simp [Function.comp_apply, h]
  simp only [finish_world, hq]

/-- C9: finish_queue_item sets the status unconditionally: every row with the
key gets the new status whatever its current status was (claimed or not,
terminal or not), rows with other keys survive unchanged, and with no
matching row the call returns normally leaving the queue exactly as it was. -/
theorem c9_finish_unconditional (q : List QueueRow) (rd : String) (si : Nat)
    (s : String) :
    ((∀ r ∈ q, qkey r rd si = false) → finish_queue_item q rd si s = q) ∧
    (∀ r ∈ q, qkey r rd si = true →
      { r with status := s } ∈ finish_queue_item q rd si s) ∧
    (∀ r ∈ q, qkey r rd si = false → r ∈ finish_queue_item q rd si s) := by
  refine ⟨?_, ?_, ?_⟩
  · intro hall
    rw [finish_queue_item]
    have : ∀ r ∈ q, (if qkey r rd si then { r with status := s } else r) = id r := by
      intro r hr
      simp [hall r hr]
    rw [List.map_congr_left this, List.map_id]
  · intro r hr hk
    have := List.mem_map_of_mem (fun r => if qkey r rd si then
      { r with status := s } else r) hr
    simpa [finish_queue_item, hk] using this
  · intro r hr hk
    have := List.mem_map_of_mem (fun r => if qkey r rd si then
      { r with status := s } else r) hr
    simpa [finish_queue_item, hk] using this

/-- C9 witness: a never-claimed pending row is set straight to skipped, a
posted row is overwritten to skipped, and finishing an absent key affects
zero rows. -/
theorem c9_finish_unconditional_witness :
    (⟨"2024-01-03", 2, "https://youtu.be/a", none, "skipped"⟩ : QueueRow) ∈
      finish_queue_item [⟨"2024-01-03", 2, "https://youtu.be/a", none, "pending"⟩]
        "2024-01-03" 2 "skipped" ∧
    (⟨"2024-01-03", 4, "https://youtu.be/b", none, "skipped"⟩ : QueueRow) ∈
      finish_queue_item [⟨"2024-01-03", 4, "https://youtu.be/b", none, "posted"⟩]
        "2024-01-03" 4 "skipped" ∧
    finish_queue_item [⟨"2024-01-03", 2, "https://youtu.be/a", none, "pending"⟩]
        "2024-01-04" 2 "skipped" =
      [⟨"2024-01-03", 2, "https://youtu.be/a", none, "pending"⟩] := by
  refine ⟨?_, ?_, ?_⟩
  · have h := (c9_finish_unconditional
        [⟨"2024-01-03", 2, "https://youtu.be/a", none, "pending"⟩]
        "2024-01-03" 2 "skipped").2.1
        ⟨"2024-01-03", 2, "https://youtu.be/a", none, "pending"⟩
        (by decide) (by decide)
    simpa using h
  · have h := (c9_finish_unconditional
        [⟨"2024-01-03", 4, "https://youtu.be/b", none, "posted"⟩]
        "2024-01-03" 4 "skipped").2.1
        ⟨"2024-01-03", 4, "https://youtu.be/b", none, "posted"⟩
        (by decide) (by decide)
    simpa using h
  · exact (c9_finish_unconditional
        [⟨"2024-01-03", 2, "https://youtu.be/a", none, "pending"⟩]
        "2024-01-04" 2 "skipped").1 (by decide)

/-- C10: for every slot_index accepted by the endpoint (0..4), the post-now
handler starts the scheduler and then fails with AttributeError on the
missing BotScheduler.post_one method, never producing the success payload. -/
theorem c10_post_now_attribute_error (st : AppState) (slot_index : Nat)
    (h : slot_index ≤ 4) :
    (post_now st slot_index).1.scheduler_started = true ∧
    (post_now st slot_index).2 = HandlerResult.attributeError "post_one" ∧
    ∀ s i, (post_now st slot_index).2 ≠ HandlerResult.ok s i := by
  refine ⟨?_, ?_, ?_⟩ <;> unfold post_now <;>
    cases st with
    | mk b => cases b <;> simp [botScheduler_methods]

/-- C10 witness: the handler at slot_index 3 from a fresh app state. -/
theorem c10_post_now_attribute_error_witness :
    (post_now ⟨false⟩ 3).1.scheduler_started = true ∧
    (post_now ⟨false⟩ 3).2 = HandlerResult.attributeError "post_one" ∧
    ∀ s i, (post_now ⟨false⟩ 3).2 ≠ HandlerResult.ok s i :=
  c10_post_now_attribute_error ⟨false⟩ 3 (by decide)

/-! ### List lemmas for the sort and dedup steps of eligible_pool -/

/-- Inserting into the stable descending sort is a permutation of consing. -/
theorem insertDesc_perm (x : Track) (l : List Track) :
    List.Perm (insertDesc x l) (x :: l) := by
  induction l with
  | nil => exact List.Perm.refl _
  | cons y ys ih =>
    rw [insertDesc]
    split
    · exact List.Perm.refl _
    · exact (List.Perm.cons y ih).trans (List.Perm.swap x y ys)

/-- The stable descending sort permutes its input. -/
theorem sortDesc_perm (l : List Track) : List.Perm (sortDesc l) l := by
  induction l with
  | nil => exact List.Perm.refl _
  | cons x xs ih =>
    simp only [sortDesc, List.foldr_cons]
    exact (insertDesc_perm x (xs.foldr insertDesc [])).trans (List.Perm.cons x ih)

/-- Insertion preserves descending sortedness of releaseKey. -/
theorem insertDesc_pairwise {l : List Track} (x : Track)
    (h : l.Pairwise (fun a b => releaseKey b ≤ releaseKey a)) :
    (insertDesc x l).Pairwise (fun a b => releaseKey b ≤ releaseKey a) := by
  induction l with
  | nil => simp [insertDesc]
  | cons y ys ih =>
    rcases List.pairwise_cons.mp h with ⟨hy, hys⟩
    rw [insertDesc]
    split
    case isTrue hc =>
      refine List.pairwise_cons.mpr ⟨?_, h⟩
      intro z hz
      rcases List.mem_cons.mp hz with rfl | hz2
      · exact hc
      · exact le_trans (hy z hz2) hc
    case isFalse hc =>
      refine List.pairwise_cons.mpr ⟨?_, ih hys⟩
      intro z hz
      rcases List.mem_cons.mp ((insertDesc_perm x ys).mem_iff.mp hz) with rfl | hz2
      · exact le_of_lt (Int.not_le.mp hc)
      · exact hy z hz2

/-- The stable descending sort is sorted by descending releaseKey. -/
theorem sortDesc_pairwise (l : List Track) :
    (sortDesc l).Pairwise (fun a b => releaseKey b ≤ releaseKey a) := by
  induction l with
  | nil => simp [sortDesc]
  | cons x xs ih =>
    simp only [sortDesc, List.foldr_cons]
    exact insertDesc_pairwise x ih

/-- Stability of the insertion step: rows of one fixed releaseKey keep their
relative order through an insertion. -/
theorem insertDesc_filter_key (x : Track) (m : List Track) (c : Int) :
    (insertDesc x m).filter (fun z => decide (releaseKey z = c)) =
      (x :: m).filter (fun z => decide (releaseKey z = c)) := by
  induction m with
  | nil => rfl
  | cons y ys ih =>
    rw [insertDesc]
    split
    case isTrue hc => rfl
    case isFalse hc =>
      by_cases hy : releaseKey y = c
      · by_cases hx : releaseKey x = c
        · exact absurd (by rw [hy, hx] : releaseKey y ≤ releaseKey x) hc
        · simp [List.filter_cons, hy, hx, ih]
      · simp [List.filter_cons, hy, ih]

/-- Stability of the sort: rows of one fixed releaseKey keep their original
relative order. -/
theorem sortDesc_filter_key (l : List Track) (c : Int) :
    (sortDesc l).filter (fun z => decide (releaseKey z = c)) =
      l.filter (fun z => decide (releaseKey z = c)) := by
  induction l with
  | nil => rfl
  | cons x xs ih =>
    simp only [sortDesc, List.foldr_cons] at *
    rw [insertDesc_filter_key, List.filter_cons, List.filter_cons, ih]

/-- Every row surviving dedup comes from the input. -/
theorem mem_of_mem_dedupByUrlAux {seen : List String} {l : List Track}
    {x : Track} (h : x ∈ dedupByUrlAux seen l) : x ∈ l := by
  induction l generalizing seen with
  | nil => simp [dedupByUrlAux] at h
  | cons y ys ih =>
    rw [dedupByUrlAux] at h
    split at h
    · exact List.mem_cons_of_mem y (ih h)
    · rcases List.mem_cons.mp h with rfl | h2
      · exact List.mem_cons_self x ys
      · exact List.mem_cons_of_mem y (ih h2)

/-- The rows of a given url surviving dedup are exactly the first input row
of that url, unless the url was already seen. -/
theorem filter_dedupByUrlAux (seen : List String) (l : List Track) (u : String) :
    (dedupByUrlAux seen l).filter (fun y => y.url == u) =
      (if u ∈ seen then [] else (l.find? (fun y => y.url == u)).toList) := by
  induction l generalizing seen with
  | nil => simp [dedupByUrlAux]
  | cons y ys ih =>
    rw [dedupByUrlAux]
    by_cases hy : seen.contains y.url = true
    · rw [if_pos hy, ih]
      have hymem : y.url ∈ seen := by simpa using hy
      by_cases hu : y.url = u
      · subst hu
        rw [if_pos hymem, if_pos hymem]
      · by_cases hus : u ∈ seen
        · rw [if_pos hus, if_pos hus]
        · rw [if_neg hus, if_neg hus, List.find?_cons_of_neg _ (by simpa using hu)]
    · rw [if_neg hy]
      have hy2 : y.url ∉ seen := by simpa using hy
      rw [List.filter_cons]
      by_cases hu : y.url = u
      · subst hu
        rw [if_pos (by simp), ih,
          if_pos (List.mem_cons_self y.url seen), if_neg hy2,
          List.find?_cons_of_pos _ (by simp)]
        rfl
      · have hmm : (u ∈ y.url :: seen) ↔ (u ∈ seen) := by
          constructor
          · intro h
            rcases List.mem_cons.mp h with he | h2
            · exact absurd he.symm hu
            · exact h2
          · exact fun h => List.mem_cons_of_mem _ h
        rw [if_neg (by simpa using hu), ih]
        by_cases hus : u ∈ seen
        · rw [if_pos (hmm.mpr hus), if_pos hus]
        · rw [if_neg (fun h => hus (hmm.mp h)), if_neg hus,
            List.find?_cons_of_neg _ (by simpa using hu)]

/-- drop_duplicates keeps, for each url, exactly the first row of that url. -/
theorem filter_dedupByUrl (l : List Track) (u : String) :
    (dedupByUrl l).filter (fun y => y.url == u) =
      (l.find? (fun y => y.url == u)).toList := by
  simp [dedupByUrl, filter_dedupByUrlAux]

/-- A permutation of a two-element list is one of its two arrangements. -/
theorem perm_pair_cases {α : Type} {a b : α} {l : List α} (h : List.Perm l [a, b]) :
    l = [a, b] ∨ l = [b, a] := by
  match l, h.length_eq with
  | [x, y], _ =>
    have hx : x ∈ [a, b] := h.mem_iff.mp (List.mem_cons_self x [y])
    rcases List.mem_cons.mp hx with rfl | hx2
    · have h2 : List.Perm [y] [b] := h.cons_inv
      rw [List.perm_singleton.mp h2]
      exact Or.inl rfl
    · have hxb : x = b := by simpa using hx2
      subst hxb
      have hy : y ∈ [a, x] := h.mem_iff.mp (List.mem_cons_of_mem x (List.mem_cons_self y []))
      rcases List.mem_cons.mp hy with rfl | hy2
      · exact Or.inr rfl
      · have hyx : y = x := by simpa using hy2
        subst hyx
        have ha : a ∈ [y, y] := h.mem_iff.mpr (List.mem_cons_self a [y])
        have : a = y := by simpa using ha
        subst this
        exact Or.inl rfl

/-- eligible_pool written with its three row filters fused into eligible_row. -/
theorem eligible_pool_eq (df : List Track) (now : Int) :
    eligible_pool df now = dedupByUrl (sortDesc (df.filter (eligible_row now))) := by
  simp only [eligible_pool, List.filter_filter]
  congr 1
  congr 1
  apply List.filter_congr
  intro x _
  simp only [eligible_row]
  cases recent_block (now - COOLDOWN_DAYS * 86400) x <;>
    cases h2 : x.releaseDate.isSome && decide (0 < x.url.length) <;>
      cases h3 : is_valid_youtube x.url <;> simp [h2, h3]

/-- Filtering the pool down to one url commutes with the eligibility filter. -/
theorem pool_filter_url (df : List Track) (now : Int) (u : String) :
    (df.filter (eligible_row now)).filter (fun y => y.url == u) =
      (df.filter (fun y => y.url == u)).filter (eligible_row now) := by
  rw [List.filter_filter, List.filter_filter]
  exact List.filter_congr (fun x _ => Bool.and_comm _ _)

/-- C3 counterexample: with cooldownDays = 30, a HistoryRecord for the item
url from 5 days before T blocks the url according to the history store's own
cooldown query, yet eligible_pool still selects the item, because selection
never consults the history store. -/
theorem c3_history_record_does_not_block :
    "https://youtu.be/aaa" ∈
      posted_in_last_days [⟨"https://youtu.be/aaa", 86400 * 19995⟩]
        ["https://youtu.be/aaa"] 30 (86400 * 20000) ∧
    (⟨"A", "https://youtu.be/aaa", some (86400 * 19990), none, false⟩ : Track) ∈
      eligible_pool [⟨"A", "https://youtu.be/aaa", some (86400 * 19990), none, false⟩]
        (86400 * 20000) := by
  decide

/-- C3 (amended): at evaluation time T, eligible_pool excludes a valid item
of a unique url exactly when the catalog row's LastPostedAt is present and at
or after T - cooldownDays; HistoryStore records play no part in selection. -/
theorem c3_cooldown_uses_catalog_only (df : List Track) (now : Int) (r : Track)
    (huniq : df.filter (fun x => x.url == r.url) = [r])
    (hval : (r.releaseDate.isSome && decide (0 < r.url.length) &&
      is_valid_youtube r.url) = true) :
    (r ∈ eligible_pool df now ↔
      recent_block (now - COOLDOWN_DAYS * 86400) r = false) := by
  have hrdf : r ∈ df := by
    have h0 : r ∈ df.filter (fun x => x.url == r.url) := by
      rw [huniq]; exact List.mem_cons_self _ _
    exact (List.mem_filter.mp h0).1
  rcases Bool.and_eq_true_iff.mp hval with ⟨hval1, hval3⟩
  rcases Bool.and_eq_true_iff.mp hval1 with ⟨hv1, hv2⟩
  constructor
  · intro hmem
    rw [eligible_pool_eq] at hmem
    have h1 : r ∈ sortDesc (df.filter (eligible_row now)) := mem_of_mem_dedupByUrlAux hmem
    have h2 : r ∈ df.filter (eligible_row now) := (sortDesc_perm _).mem_iff.mp h1
    have h3 : eligible_row now r = true := (List.mem_filter.mp h2).2
    rw [eligible_row] at h3
    rcases Bool.and_eq_true_iff.mp h3 with ⟨h4, _⟩
    rcases Bool.and_eq_true_iff.mp h4 with ⟨h5, _⟩
    simpa using h5
  · intro hrb
    have helig : eligible_row now r = true := by
      simp [eligible_row, hrb, hv1, hv2, hval3]
    have hpool : r ∈ df.filter (eligible_row now) := List.mem_filter.mpr ⟨hrdf, helig⟩
    have hpf : (df.filter (eligible_row now)).filter (fun y => y.url == r.url) = [r] := by
      rw [pool_filter_url, huniq]
      simp [List.filter_cons, helig]
    have hsfperm := (sortDesc_perm (df.filter (eligible_row now))).filter
      (fun y => y.url == r.url)
    rw [hpf] at hsfperm
    have hsf := List.perm_singleton.mp hsfperm
    have hfind : (sortDesc (df.filter (eligible_row now))).find?
        (fun y => y.url == r.url) = some r := by
      rw [← List.filter_head?, hsf]; rfl
    have hout : (dedupByUrl (sortDesc (df.filter (eligible_row now)))).filter
        (fun y => y.url == r.url) = [r] := by
      rw [filter_dedupByUrl, hfind]; rfl
    rw [eligible_pool_eq]
    have hmem2 : r ∈ (dedupByUrl (sortDesc (df.filter (eligible_row now)))).filter
        (fun y => y.url == r.url) := by
      rw [hout]; exact List.mem_cons_self _ _
    exact (List.mem_filter.mp hmem2).1

/-- C3 witness: a valid item whose LastPostedAt is absent is selected, by the
amended cooldown characterisation. -/
theorem c3_cooldown_uses_catalog_only_witness :
    (⟨"A", "https://youtu.be/aaa", some (86400 * 19990), none, false⟩ : Track) ∈
      eligible_pool [⟨"A", "https://youtu.be/aaa", some (86400 * 19990), none, false⟩]
        (86400 * 20000) :=
  (c3_cooldown_uses_catalog_only
    [⟨"A", "https://youtu.be/aaa", some (86400 * 19990), none, false⟩]
    (86400 * 20000)
    ⟨"A", "https://youtu.be/aaa", some (86400 * 19990), none, false⟩
    (by decide) (by decide)).mpr (by decide)

/-- C4: selection returns at most one row per url; and when the catalog holds
exactly two rows of a url, both eligible, the returned row is the one with
the later release date, the first-seen row winning ties. -/
theorem c4_dedup_keeps_latest (df : List Track) (now : Int) (u : String) :
    ((eligible_pool df now).filter (fun x => x.url == u)).length ≤ 1 ∧
    (∀ a b : Track, df.filter (fun x => x.url == u) = [a, b] →
      eligible_row now a = true → eligible_row now b = true →
      (eligible_pool df now).filter (fun x => x.url == u) =
        [if releaseKey a < releaseKey b then b else a]) := by
  constructor
  · rw [eligible_pool_eq, filter_dedupByUrl]
    cases (sortDesc (df.filter (eligible_row now))).find? (fun y => y.url == u) <;> simp
  · intro a b hab ha hb
    rw [eligible_pool_eq, filter_dedupByUrl, ← List.filter_head?]
    have hpf : (df.filter (eligible_row now)).filter (fun y => y.url == u) = [a, b] := by
      rw [pool_filter_url, hab]
      simp [List.filter_cons, ha, hb]
    have hmperm : List.Perm
        ((sortDesc (df.filter (eligible_row now))).filter (fun y => y.url == u))
        [a, b] := by
      have hp := (sortDesc_perm (df.filter (eligible_row now))).filter
        (fun y => y.url == u)
      rw [hpf] at hp
      exact hp
    have hpair := perm_pair_cases hmperm
    have hsorted : ((sortDesc (df.filter (eligible_row now))).filter
        (fun y => y.url == u)).Pairwise (fun x y => releaseKey y ≤ releaseKey x) :=
      List.Pairwise.filter _ (sortDesc_pairwise _)
    by_cases hlt : releaseKey a < releaseKey b
    · rw [if_pos hlt]
      rcases hpair with heq | heq
      · rw [heq] at hsorted
        have hba : releaseKey b ≤ releaseKey a :=
          (List.pairwise_cons.mp hsorted).1 b (List.mem_cons_self _ _)
        exact absurd hba (Int.not_le.mpr hlt)
      · rw [heq]; rfl
    · rw [if_neg hlt]
      by_cases hgt : releaseKey b < releaseKey a
      · rcases hpair with heq | heq
        · rw [heq]; rfl
        · rw [heq] at hsorted
          have hba : releaseKey a ≤ releaseKey b :=
            (List.pairwise_cons.mp hsorted).1 a (List.mem_cons_self _ _)
          exact absurd hba (Int.not_le.mpr hgt)
      · have heqk : releaseKey a = releaseKey b :=
          le_antisymm (Int.not_lt.mp hgt) (Int.not_lt.mp hlt)
        have hzkey : ∀ z ∈ df.filter (eligible_row now), (z.url == u) = true →
            releaseKey z = releaseKey a := by
          intro z hz hzu
          have hz2 : z ∈ (df.filter (eligible_row now)).filter (fun y => y.url == u) :=
            List.mem_filter.mpr ⟨hz, hzu⟩
          rw [hpf] at hz2
          rcases List.mem_cons.mp hz2 with rfl | hz3
          · rfl
          · have hzb : z = b := by simpa using hz3
            rw [hzb, heqk]
        have hchain : (sortDesc (df.filter (eligible_row now))).filter
            (fun y => y.url == u) = [a, b] := by
          have hstep1 : (sortDesc (df.filter (eligible_row now))).filter
              (fun y => y.url == u) =
              (sortDesc (df.filter (eligible_row now))).filter
                (fun y => decide (releaseKey y = releaseKey a) && (y.url == u)) := by
            apply List.filter_congr
            intro z hz
            by_cases hzu : (z.url == u) = true
            · have hzp : z ∈ df.filter (eligible_row now) :=
                (sortDesc_perm _).mem_iff.mp hz
              rw [hzu, hzkey z hzp hzu]
              simp
            · have hzf : (z.url == u) = false := by simpa using hzu
              rw [hzf]
              simp
          have hstep2 : (sortDesc (df.filter (eligible_row now))).filter
              (fun y => decide (releaseKey y = releaseKey a) && (y.url == u)) =
              ((sortDesc (df.filter (eligible_row now))).filter
                (fun y => decide (releaseKey y = releaseKey a))).filter
                  (fun y => y.url == u) := by
            rw [List.filter_filter]
            apply List.filter_congr
            intro z _
            exact Bool.and_comm _ _
          have hstep4 : ((df.filter (eligible_row now)).filter
              (fun y => decide (releaseKey y = releaseKey a))).filter
                (fun y => y.url == u) =
              (df.filter (eligible_row now)).filter (fun y => y.url == u) := by
            rw [List.filter_filter]
            apply List.filter_congr
            intro z hz
            by_cases hzu : (z.url == u) = true
            · rw [hzu, hzkey z hz hzu]
              simp
            · have hzf : (z.url == u) = false := by simpa using hzu
              rw [hzf]
              simp
          rw [hstep1, hstep2, sortDesc_filter_key, hstep4, hpf]
        rw [hchain]
        rfl

/-- C4 witness: of two eligible rows sharing one url, the one with the later
release date is the single row selection returns for that url. -/
theorem c4_dedup_keeps_latest_witness :
    (eligible_pool
        [⟨"early", "https://youtu.be/dup", some (86400 * 100), none, false⟩,
         ⟨"late", "https://youtu.be/dup", some (86400 * 200), none, false⟩]
        (86400 * 300)).filter (fun x => x.url == "https://youtu.be/dup") =
      [⟨"late", "https://youtu.be/dup", some (86400 * 200), none, false⟩] := by
  have h := (c4_dedup_keeps_latest
      [⟨"early", "https://youtu.be/dup", some (86400 * 100), none, false⟩,
       ⟨"late", "https://youtu.be/dup", some (86400 * 200), none, false⟩]
      (86400 * 300) "https://youtu.be/dup").2
      ⟨"early", "https://youtu.be/dup", some (86400 * 100), none, false⟩
      ⟨"late", "https://youtu.be/dup", some (86400 * 200), none, false⟩
      (by decide) (by decide) (by decide)
  exact h.trans (by decide)

/-- Any candidate that explode_one_dt successfully builds against an aware
recent_cut has no release date (a dated row raises at the is_recent
comparison) and is therefore never recent. -/
theorem explode_one_dt_release_none {df : List SRow} {rc cutoff : PyDT}
    {p : Nat × SRow} {plat : String} {c : Candidate} (hrc : rc.aware = true)
    (h : explode_one_dt df rc cutoff p plat = Except.ok (some c)) :
    c.release_dt = none ∧ c.is_recent = false := by
  rw [explode_one_dt] at h
  rcases hl : platform_cols.lookup plat with _ | cols
  · simp only [hl] at h
    exact Option.noConfusion (Except.ok.inj h)
  · simp only [hl] at h
    rcases hu : p.2.urls.lookup cols.url with _ | u
    · simp only [hu] at h
      exact Option.noConfusion (Except.ok.inj h)
    · simp only [hu] at h
      by_cases hstrip : (pyStrip u == "") = true
      · simp only [hstrip, if_true] at h
        exact Option.noConfusion (Except.ok.inj h)
      · simp only [hstrip, Bool.false_eq_true, if_false] at h
        rcases hrd : p.2.releaseDate with _ | t
        · simp only [hrd, Option.map_none', candidate_is_recent] at h
          rcases hcd : is_url_in_cooldown_dt df (pyStrip u) plat cutoff with e | blocked
          · simp only [hcd] at h
            exact Except.noConfusion h
          · simp only [hcd] at h
            by_cases hb : blocked = true
            · simp only [hb, if_true] at h
              exact Option.noConfusion (Except.ok.inj h)
            · simp only [hb, Bool.false_eq_true, if_false] at h
              have hc := Option.some.inj (Except.ok.inj h)
              rw [← hc]
              exact ⟨rfl, rfl⟩
        · have hge : pyGE ⟨false, t⟩ rc = Except.error tzCompareError := by
            rw [pyGE]
            simp [hrc]
          simp only [hrd, Option.map_some', candidate_is_recent, hge] at h
          exact Except.noConfusion h

/-- The platform loop of explode at datetime fidelity only ever returns
undated, never-recent candidates. -/
theorem explodeRowDT_release_none {df : List SRow} {rc cutoff : PyDT}
    {p : Nat × SRow} (hrc : rc.aware = true) :
    ∀ (plats : List String) (cs : List Candidate),
      explodeRowDT df rc cutoff p plats = Except.ok cs →
      ∀ c ∈ cs, c.release_dt = none ∧ c.is_recent = false := by
  intro plats
  induction plats with
  | nil =>
    intro cs h c hc
    rw [explodeRowDT] at h
    have : ([] : List Candidate) = cs := Except.ok.inj h
    rw [← this] at hc
    cases hc
  | cons plat rest ih =>
    intro cs h c hc
    rw [explodeRowDT] at h
    rcases h1 : explode_one_dt df rc cutoff p plat with e | oc
    · simp only [h1] at h
      exact Except.noConfusion h
    · simp only [h1] at h
      rcases oc with _ | c0
      · exact ih cs h c hc
      · rcases h2 : explodeRowDT df rc cutoff p rest with e | cs0
        · simp only [h2] at h
          exact Except.noConfusion h
        · simp only [h2] at h
          have hcs : c0 :: cs0 = cs := Except.ok.inj h
          rw [← hcs] at hc
          rcases List.mem_cons.mp hc with rfl | hc2
          · exact explode_one_dt_release_none hrc h1
          · exact ih cs0 h2 c hc2

/-- The row loop of explode at datetime fidelity only ever returns undated,
never-recent candidates. -/
theorem explodeRowsDT_release_none {df : List SRow} {rc cutoff : PyDT}
    {plats : List String} (hrc : rc.aware = true) :
    ∀ (rows : List (Nat × SRow)) (l : List Candidate),
      explodeRowsDT df rc cutoff plats rows = Except.ok l →
      ∀ c ∈ l, c.release_dt = none ∧ c.is_recent = false := by
  intro rows
  induction rows with
  | nil =>
    intro l h c hc
    rw [explodeRowsDT] at h
    have : ([] : List Candidate) = l := Except.ok.inj h
    rw [← this] at hc
    cases hc
  | cons p rest ih =>
    intro l h c hc
    rw [explodeRowsDT] at h
    rcases h1 : explodeRowDT df rc cutoff p plats with e | cs
    · simp only [h1] at h
      exact Except.noConfusion h
    · simp only [h1] at h
      rcases h2 : explodeRowsDT df rc cutoff plats rest with e | csr
      · simp only [h2] at h
        exact Except.noConfusion h
      · simp only [h2] at h
        have hl2 : cs ++ csr = l := Except.ok.inj h
        rw [← hl2] at hc
        rcases List.mem_append.mp hc with hcl | hcr
        · exact explodeRowDT_release_none hrc plats cs h1 c hcl
        · exact ih csr h2 c hcr

/-- C6: the classification the claim describes never happens in
_explode_candidates: the release datetimes are tz-naive (parsed without utc)
while recent_cut is derived from the tz-aware now, so the comparison on
scheduler.py line 248 raises TypeError for every row with a parseable
release date - at a 10:00 firing and at an exact-midnight firing alike - and
a firing can only ever classify undated rows, none of them recent.  In
pick_daily_set, the claim's other cited site, the claim does hold: the
date-level boundary is inclusive and every recent row is ordered before
every back-catalog row. -/
theorem c6_recency_boundary_tz :
    (explode_candidates_dt ["YouTube"] [sampleSheetRow]
        (20000 * 86400 + 36000) 60 30 = Except.error tzCompareError) ∧
    (explode_candidates_dt ["YouTube"] [sampleSheetRow]
        (20000 * 86400) 60 30 = Except.error tzCompareError) ∧
    (∀ (plats : List String) (df : List SRow) (now recentDays cooldownDays : Int)
      (l : List Candidate),
      explode_candidates_dt plats df now recentDays cooldownDays = Except.ok l →
      ∀ c ∈ l, c.release_dt = none ∧ c.is_recent = false) ∧
    (∀ (df : List Track) (now_local now_utc : Int)
      (shR shB shE : List Track → List Track) (k : Nat) (t : Track),
      (∀ l, List.Perm (shR l) l) → (∀ l, List.Perm (shB l) l) →
      (∀ l, List.Perm (shE l) l) →
      t ∈ eligible_pool df now_utc →
      now_local.fdiv 86400 - RECENT_WINDOW_DAYS ≤ relDay t →
      (eligible_pool df now_utc).length ≤ k →
      ∃ l1 l2, pick_daily_set df now_local now_utc shR shB shE k = l1 ++ l2 ∧
        t ∈ l1 ∧
        (∀ x ∈ l1, now_local.fdiv 86400 - RECENT_WINDOW_DAYS ≤ relDay x) ∧
        (∀ y ∈ l2, relDay y < now_local.fdiv 86400 - RECENT_WINDOW_DAYS)) := by
  refine ⟨by rfl, by rfl, ?_, ?_⟩
  · intro plats df now recentDays cooldownDays l h c hc
    rw [explode_candidates_dt] at h
    exact explodeRowsDT_release_none rfl df.enum l h c hc
  · intro df nl nu shR shB shE k t hR hB hE htpool hcut hlen
    have hne : (eligible_pool df nu).isEmpty = false := by
      cases hp : (eligible_pool df nu).isEmpty
      · rfl
      · rw [List.isEmpty_iff] at hp
        rw [hp] at htpool
        cases htpool
    have hpB : (eligible_pool df nu).filter
        (fun r => decide (relDay r < nl.fdiv 86400 - RECENT_WINDOW_DAYS)) =
        (eligible_pool df nu).filter
          (fun r => !(decide (nl.fdiv 86400 - RECENT_WINDOW_DAYS ≤ relDay r))) := by
      apply List.filter_congr
      intro x _
      rcases lt_or_le (relDay x) (nl.fdiv 86400 - RECENT_WINDOW_DAYS) with hx | hx
      · simp [hx, Int.not_le.mpr hx]
      · simp [Int.not_lt.mpr hx, hx]
    have hlenpart : ((eligible_pool df nu).filter
        (fun r => decide (nl.fdiv 86400 - RECENT_WINDOW_DAYS ≤ relDay r))).length +
        ((eligible_pool df nu).filter
          (fun r => decide (relDay r < nl.fdiv 86400 - RECENT_WINDOW_DAYS))).length =
        (eligible_pool df nu).length := by
      rw [hpB]
      have hperm := (List.filter_append_perm
        (fun r => decide (nl.fdiv 86400 - RECENT_WINDOW_DAYS ≤ relDay r))
        (eligible_pool df nu)).length_eq
      rw [List.length_append] at hperm
      exact hperm
    have hchlen : ((shR ((eligible_pool df nu).filter
        (fun r => decide (nl.fdiv 86400 - RECENT_WINDOW_DAYS ≤ relDay r)))) ++
        (shB ((eligible_pool df nu).filter
          (fun r => decide (relDay r < nl.fdiv 86400 - RECENT_WINDOW_DAYS))))).length =
        (eligible_pool df nu).length := by
      rw [List.length_append, (hR _).length_eq, (hB _).length_eq]
      exact hlenpart
    have htake : ((shR ((eligible_pool df nu).filter
        (fun r => decide (nl.fdiv 86400 - RECENT_WINDOW_DAYS ≤ relDay r)))) ++
        (shB ((eligible_pool df nu).filter
          (fun r => decide (relDay r < nl.fdiv 86400 - RECENT_WINDOW_DAYS))))).take k =
        (shR ((eligible_pool df nu).filter
          (fun r => decide (nl.fdiv 86400 - RECENT_WINDOW_DAYS ≤ relDay r)))) ++
        (shB ((eligible_pool df nu).filter
          (fun r => decide (relDay r < nl.fdiv 86400 - RECENT_WINDOW_DAYS)))) :=
      List.take_of_length_le (by rw [hchlen]; exact hlen)
    have hmemchosen : ∀ r ∈ eligible_pool df nu,
        r ∈ (shR ((eligible_pool df nu).filter
          (fun r => decide (nl.fdiv 86400 - RECENT_WINDOW_DAYS ≤ relDay r)))) ++
          (shB ((eligible_pool df nu).filter
            (fun r => decide (relDay r < nl.fdiv 86400 - RECENT_WINDOW_DAYS)))) := by
      intro r hr
      rcases lt_or_le (relDay r) (nl.fdiv 86400 - RECENT_WINDOW_DAYS) with hx | hx
      · exact List.mem_append.mpr (Or.inr ((hB _).mem_iff.mpr
          (List.mem_filter.mpr ⟨hr, by simp [hx]⟩)))
      · exact List.mem_append.mpr (Or.inl ((hR _).mem_iff.mpr
          (List.mem_filter.mpr ⟨hr, by simp [hx]⟩)))
    have hres : pick_daily_set df nl nu shR shB shE k =
        (shR ((eligible_pool df nu).filter
          (fun r => decide (nl.fdiv 86400 - RECENT_WINDOW_DAYS ≤ relDay r)))) ++
        (shB ((eligible_pool df nu).filter
          (fun r => decide (relDay r < nl.fdiv 86400 - RECENT_WINDOW_DAYS)))) := by
      rw [pick_daily_set]
      simp only [hne, Bool.false_eq_true, if_false, htake]
      split
      case isTrue hlt =>
        have hext : (eligible_pool df nu).filter
            (fun r => !(((shR ((eligible_pool df nu).filter
              (fun r => decide (nl.fdiv 86400 - RECENT_WINDOW_DAYS ≤ relDay r)))) ++
              (shB ((eligible_pool df nu).filter
                (fun r => decide (relDay r < nl.fdiv 86400 - RECENT_WINDOW_DAYS))))).any
                  (fun c => c.url == r.url))) = [] := by
          rw [List.filter_eq_nil_iff]
          intro r hr
          have hany : (((shR ((eligible_pool df nu).filter
              (fun r => decide (nl.fdiv 86400 - RECENT_WINDOW_DAYS ≤ relDay r)))) ++
              (shB ((eligible_pool df nu).filter
                (fun r => decide (relDay r < nl.fdiv 86400 - RECENT_WINDOW_DAYS))))).any
                  (fun c => c.url == r.url)) = true :=
            List.any_eq_true.mpr ⟨r, hmemchosen r hr, by simp⟩
          rw [hany]
          simp
        rw [hext, (hE []).eq_nil]
        simp
      case isFalse hlt => rfl
    refine ⟨_, _, hres, ?_, ?_, ?_⟩
    · refine (hR _).mem_iff.mpr (List.mem_filter.mpr ⟨htpool, ?_⟩)
      exact decide_eq_true hcut
    · intro x hx
      have := List.mem_filter.mp ((hR _).mem_iff.mp hx)
      simpa using this.2
    · intro y hy
      have := List.mem_filter.mp ((hB _).mem_iff.mp hy)
      simpa using this.2
/-- C6 witness: a successfully exploded candidate (from the only kind of row
that survives the tz comparison, an undated one) has no release date and is
not recent; and the boundary item lands in the recent segment of
pick_daily_set ahead of all back-catalog rows. -/
theorem c6_recency_boundary_tz_witness :
    (c6_undatedCandidate.release_dt = none ∧
      c6_undatedCandidate.is_recent = false) ∧
    (∃ l1 l2, pick_daily_set [c6_track] (20000 * 86400 + 36000)
        (20000 * 86400 + 36000) (fun l => l) (fun l => l) (fun l => l) 5 =
          l1 ++ l2 ∧
      c6_track ∈ l1 ∧
      (∀ x ∈ l1, (20000 * 86400 + 36000 : Int).fdiv 86400 -
        RECENT_WINDOW_DAYS ≤ relDay x) ∧
      (∀ y ∈ l2, relDay y < (20000 * 86400 + 36000 : Int).fdiv 86400 -
        RECENT_WINDOW_DAYS)) := by
  constructor
  · exact c6_recency_boundary_tz.2.2.1 ["YouTube"] [c6_undated_row]
      (20000 * 86400 + 36000) 60 30 [c6_undatedCandidate] (by rfl)
      c6_undatedCandidate (by decide)
  · exact c6_recency_boundary_tz.2.2.2 [c6_track] (20000 * 86400 + 36000)
      (20000 * 86400 + 36000) (fun l => l) (fun l => l) (fun l => l) 5 c6_track
      (fun l => List.Perm.refl l) (fun l => List.Perm.refl l)
      (fun l => List.Perm.refl l) (by decide) (by decide) (by decide)

/-- C2: at a firing whose publisher call fails, run_once catches the failure
and ends with the sqlite state untouched: the previously claimed row keeps
status posting past the end of the firing, and no finish (skipped) is ever
written, because run_once performs no queue operation at all. -/
theorem c2_no_finish_on_publish_failure :
    (run_once c2_env c2_world).1.db = c2_world.db ∧
    ((run_once c2_env c2_world).1.db.queue.map (fun r => r.status)) = ["posting"] ∧
    (run_once c2_env c2_world).2 = [Effect.publishAttempted "text" none] := by
  decide

/-- C5 (amended): a dry-run firing is fully isolated: it performs no real
publish, appends no history record, leaves the catalog file untouched, and
leaves the queue exactly as it was - in particular no queue row is moved to a
dry_run status, since run_once never touches the queue. -/
theorem c5_dry_run_isolated (env : Env) (w : World) (h : env.dryRun = true) :
    run_once env w = (w, []) := by
  rcases hex : w.excelFile with _ | df
  case none => rw [run_once, hex]
  case some =>
    rw [run_once, hex]
    dsimp only
    by_cases hdf : df.isEmpty = true
    · rw [if_pos hdf]
    · rw [if_neg hdf]
      by_cases hcs : (explode_candidates env.plats df env.now env.recentDays
          env.cooldownDays).isEmpty = true
      · rw [if_pos hcs]
      · rw [if_neg hcs]
        rcases hpk : pick_candidate (explode_candidates env.plats df env.now
            env.recentDays env.cooldownDays) with _ | cand
        · simp only [hpk]
        · simp only [hpk]
          simp [post_text, h]

/-- C5 counterexample: a dry-run firing over a pending queue row leaves the
row pending; no row ever reaches the dry_run status the claim promises. -/
theorem c5_queue_never_reaches_dry_run :
    ((run_once c5_env c5_world).1.db.queue.map (fun r => r.status)) = ["pending"] ∧
    ("dry_run" ∉ (run_once c5_env c5_world).1.db.queue.map (fun r => r.status)) ∧
    (run_once c5_env c5_world).2 = [] := by
  decide

/-- C5 witness: the dry-run isolation theorem applied to the concrete dry-run
firing. -/
theorem c5_dry_run_isolated_witness :
    run_once c5_env c5_world = (c5_world, []) :=
  c5_dry_run_isolated c5_env c5_world (by decide)

end XBot
